import Mathlib

/-!
# Verification of the coin-trader core

Shallow embedding of the tick-driven trading core of the `coin-trader`
repository: the domain model, the portfolio manager
(`src/coin_trader/domain/portfolio.py`), the risk manager
(`src/coin_trader/domain/risk.py`), the execution engine
(`src/coin_trader/execution/engine.py`) and the DipBuy strategy
(`src/coin_trader/strategies/dip_buy.py`).

Modelling conventions:
* Python `Decimal` and `float` amounts are modelled as exact rationals (`ℚ`).
* `datetime.utcnow().date()` is modelled by an explicit `today : ℕ` parameter
  threaded into every operation that reads the clock; `datetime.utcnow()`
  used for `exit_time` is an explicit `now : ℕ` parameter.
* Python dicts keyed by ticker are association lists preserving insertion
  order; assigning to an existing key updates in place.
* Reason strings keep the fixed text of the source f-strings with the
  interpolated numeric parts dropped.
* Raising Python code is modelled by `Except`; functions that return `None`
  before mutating are `Option`-valued, where `none` corresponds to the
  early return without mutation.
* The module `coin_trader/domain/models.py` is imported by the core but is
  not present in the sources; its value types are modelled from the spec
  (section 3) where so marked.
-/

namespace CoinTrader

/-- Order side of a trade (`Side` enum). Modelled from the spec: section 3,
`models.py` absent from the sources. -/
inductive Side where
  | buy
  | sell
deriving DecidableEq, Repr

/-- Signal type (`SignalType` enum). Modelled from the spec: section 3,
`models.py` absent from the sources. -/
inductive SignalType where
  | buy
  | sell
deriving DecidableEq, Repr

/-- Position status (`PositionStatus` enum). Modelled from the spec:
section 3, `models.py` absent from the sources. -/
inductive PositionStatus where
  | opened
  | closed
deriving DecidableEq, Repr

/-- A position record. Modelled from the spec: section 3 lists the fields
{strategy_name, ticker, status ∈ {OPEN, CLOSED}, entry_price, quantity,
highest_price, exit_price, exit_time, profit, profit_pct}; a Position is
created OPEN, the nullable fields default to null (`models.py` absent from
the sources). -/
structure Position where
  strategy_name : String
  ticker : String
  entry_price : ℚ
  quantity : ℚ
  highest_price : Option ℚ := none
  status : PositionStatus := PositionStatus.opened
  exit_price : Option ℚ := none
  exit_time : Option ℕ := none
  profit : Option ℚ := none
  profit_pct : Option ℚ := none
deriving DecidableEq, Repr

/-- An executed trade record. Modelled from the spec: section 3
(`models.py` absent from the sources); `profit`/`profit_pct` are null
unless set (SELL only). `total_krw` is the spec's `total_quote_amount`,
named as in the calls of `portfolio.py`. -/
structure Trade where
  strategy_name : String
  ticker : String
  side : Side
  price : ℚ
  quantity : ℚ
  total_krw : ℚ
  fee : ℚ
  reason : String := ""
  profit : Option ℚ := none
  profit_pct : Option ℚ := none
deriving DecidableEq, Repr

/-- Portfolio state. Modelled from the spec: section 3 (`models.py` absent
from the sources). `positions` is the ticker → Position dict, kept as an
insertion-ordered association list. -/
structure Portfolio where
  krw_balance : ℚ
  positions : List (String × Position) := []
  total_trades : ℕ := 0
  winning_trades : ℕ := 0
  total_profit : ℚ := 0
deriving DecidableEq, Repr

/-- Strategy signal. Modelled from the spec: section 3 (`models.py` absent
from the sources); the opaque `params` bag is kept as named rational
entries, which is all the core strategies store in it. -/
structure Signal where
  strategy_name : String
  ticker : String
  signal_type : SignalType
  strength : ℚ
  reason : String := ""
  params : List (String × ℚ) := []
deriving DecidableEq, Repr

/-- Dict lookup `portfolio.positions[ticker]` / `ticker in portfolio.positions`. -/
def Portfolio.getPos (pf : Portfolio) (ticker : String) : Option Position :=
  (pf.positions.find? (fun e => e.1 == ticker)).map Prod.snd

/-- Dict assignment `portfolio.positions[ticker] = pos`: update in place if
the key exists, else append (Python dict insertion order). -/
def setPos (ps : List (String × Position)) (ticker : String) (p : Position) :
    List (String × Position) :=
  if ps.any (fun e => e.1 == ticker) then
    ps.map (fun e => if e.1 == ticker then (ticker, p) else e)
  else ps ++ [(ticker, p)]

/-- `PortfolioManager` (`domain/portfolio.py`); `fee_rate` is the stored
rate `fee_rate / 100` (the constructor converts from percentage). -/
structure PortfolioManager where
  portfolio : Portfolio
  fee_rate : ℚ
deriving DecidableEq, Repr

/-- Percentage-to-rate conversion done in `PortfolioManager.__init__`. -/
def mkFeeRate (pct : ℚ) : ℚ := pct / 100

/-- `PortfolioManager.execute_buy` (`domain/portfolio.py` lines 29-77).
`none` is the `return None` on insufficient funds, taken before any
mutation. -/
def execute_buy (pm : PortfolioManager) (strategy_name ticker : String)
    (price krw_amount : ℚ) (reason : String) :
    Option (PortfolioManager × Trade) :=
  if pm.portfolio.krw_balance < krw_amount then none
  else
    let fee := krw_amount * pm.fee_rate
    let net_amount := krw_amount - fee
    let quantity := net_amount / price
    let position : Position :=
      { strategy_name := strategy_name, ticker := ticker,
        entry_price := price, quantity := quantity,
        highest_price := some price }
    let pf :=
      { pm.portfolio with
        krw_balance := pm.portfolio.krw_balance - krw_amount,
        positions := setPos pm.portfolio.positions ticker position }
    let trade : Trade :=
      { strategy_name := strategy_name, ticker := ticker, side := Side.buy,
        price := price, quantity := quantity, total_krw := krw_amount,
        fee := fee, reason := reason }
    some ({ pm with portfolio := pf }, trade)

/-- `PortfolioManager.execute_sell` (`domain/portfolio.py` lines 79-143).
`now` stands for `datetime.utcnow()` stored into `exit_time`. -/
def execute_sell (pm : PortfolioManager) (strategy_name ticker : String)
    (price : ℚ) (reason : String) (now : ℕ) :
    Option (PortfolioManager × Trade) :=
  match pm.portfolio.getPos ticker with
  | none => none
  | some position =>
    if position.status ≠ PositionStatus.opened then none
    else
      let gross_krw := position.quantity * price
      let fee := gross_krw * pm.fee_rate
      let net_krw := gross_krw - fee
      let raw_cost := position.quantity * position.entry_price
      let buy_fee := raw_cost * pm.fee_rate / (1 - pm.fee_rate)
      let cost := raw_cost + buy_fee
      let profit := net_krw - cost
      let profit_pct := if cost > 0 then profit / cost * 100 else 0
      let closedPos :=
        { position with
          status := PositionStatus.closed,
          exit_price := some price,
          exit_time := some now,
          profit := some profit,
          profit_pct := some profit_pct }
      let pf0 := pm.portfolio
      let pf :=
        { pf0 with
          krw_balance := pf0.krw_balance + net_krw,
          total_trades := pf0.total_trades + 1,
          total_profit := pf0.total_profit + profit,
          winning_trades :=
            if profit > 0 then pf0.winning_trades + 1 else pf0.winning_trades,
          positions := setPos pf0.positions ticker closedPos }
      let trade : Trade :=
        { strategy_name := strategy_name, ticker := ticker, side := Side.sell,
          price := price, quantity := position.quantity, total_krw := net_krw,
          fee := fee, reason := reason, profit := some profit,
          profit_pct := some profit_pct }
      some ({ pm with portfolio := pf }, trade)

/-- Python truthiness condition `pos.highest_price is None or price > pos.highest_price`. -/
def hpUpdateNeeded (pos : Position) (price : ℚ) : Bool :=
  match pos.highest_price with
  | none => true
  | some h => h < price

/-- `PortfolioManager.update_highest_price` (`domain/portfolio.py` lines 145-152). -/
def update_highest_price (pm : PortfolioManager) (ticker : String) (price : ℚ) :
    PortfolioManager :=
  match pm.portfolio.getPos ticker with
  | none => pm
  | some pos =>
    if pos.status = PositionStatus.opened ∧ hpUpdateNeeded pos price then
      { pm with portfolio :=
        { pm.portfolio with
          positions := setPos pm.portfolio.positions ticker
            { pos with highest_price := some price } } }
    else pm

/-- `PortfolioManager.get_open_positions` membership: does the ticker have
an OPEN position. -/
def hasOpenPosition (pf : Portfolio) (ticker : String) : Bool :=
  match pf.getPos ticker with
  | some p => p.status == PositionStatus.opened
  | none => false

/-- `RiskConfig` (`config.py`), with the default values of `config.py`.
Percentages as exact rationals. -/
structure RiskConfig where
  stop_loss_pct : ℚ := -5
  take_profit_pct : ℚ := 10
  trailing_stop_pct : ℚ := 3
  max_daily_loss_pct : ℚ := -3
  max_drawdown_pct : ℚ := -15
  max_positions : ℕ := 5
  fee_rate : ℚ := (5 : ℚ) / 100
deriving DecidableEq, Repr

/-- `TradingConfig` (`config.py`): the configured initial quote balance and
the fixed buy amount per entry. -/
structure TradingConfig where
  initial_krw : ℚ := 1000000
  buy_amount : ℚ := 100000
deriving DecidableEq, Repr

/-- `RiskCheck` (`domain/risk.py`). Reason strings keep the source text
with interpolated numbers dropped. -/
structure RiskCheck where
  allowed : Bool
  reason : String := ""
deriving DecidableEq, Repr

/-- `DailyPnL` (`domain/risk.py`); the date is an abstract day number. -/
structure DailyPnL where
  date : ℕ
  realized_pnl : ℚ := 0
  trades_today : ℕ := 0
deriving DecidableEq, Repr

/-- `RiskManager._reset_daily_if_needed` (`domain/risk.py` lines 37-40);
`today` models `datetime.utcnow().date()`. -/
def resetDailyIfNeeded (d : DailyPnL) (today : ℕ) : DailyPnL :=
  if d.date ≠ today then { date := today } else d

/-- The count of OPEN positions computed at the top of
`RiskManager.check_buy` (`domain/risk.py` lines 55-57). -/
def openCount (pf : Portfolio) : ℕ :=
  (pf.positions.filter (fun e => e.2.status == PositionStatus.opened)).length

/-- `RiskManager.check_buy` (`domain/risk.py` lines 42-98). Returns the
daily aggregate after the lazy reset together with the check result. The
source compares against the hard-coded `initial = Decimal("1000000")`. -/
def check_buy (cfg : RiskConfig) (daily : DailyPnL) (today : ℕ)
    (sig : Signal) (pf : Portfolio) (buy_amount : ℚ) :
    DailyPnL × RiskCheck :=
  let d := resetDailyIfNeeded daily today
  if sig.signal_type ≠ SignalType.buy then
    (d, { allowed := false, reason := "Not a BUY signal" })
  else if cfg.max_positions ≤ openCount pf then
    (d, { allowed := false, reason := "Max positions reached" })
  else if pf.krw_balance < buy_amount then
    (d, { allowed := false, reason := "Insufficient balance" })
  else
    let initial : ℚ := 1000000
    let daily_loss_pct := d.realized_pnl / initial * 100
    if daily_loss_pct ≤ cfg.max_daily_loss_pct then
      (d, { allowed := false, reason := "Daily loss limit hit" })
    else if pf.total_trades > 0 ∧ pf.total_profit / initial * 100 ≤ cfg.max_drawdown_pct then
      (d, { allowed := false, reason := "Max drawdown hit" })
    else if hasOpenPosition pf sig.ticker then
      (d, { allowed := false, reason := "Already have open position" })
    else (d, { allowed := true })

/-- `RiskManager.check_sell` (`domain/risk.py` lines 100-112). -/
def check_sell (sig : Signal) (pf : Portfolio) : RiskCheck :=
  if sig.signal_type ≠ SignalType.sell then
    { allowed := false, reason := "Not a SELL signal" }
  else
    match pf.getPos sig.ticker with
    | none => { allowed := false, reason := "No position" }
    | some pos =>
      if pos.status ≠ PositionStatus.opened then
        { allowed := false, reason := "Position is not open" }
      else { allowed := true }

/-- `RiskManager.check_stop_loss` (`domain/risk.py` lines 114-125). -/
def check_stop_loss (cfg : RiskConfig) (pos : Position) (current_price : ℚ) :
    RiskCheck :=
  if pos.status ≠ PositionStatus.opened then
    { allowed := false, reason := "Position not open" }
  else
    let change_pct := (current_price - pos.entry_price) / pos.entry_price * 100
    if change_pct ≤ cfg.stop_loss_pct then
      { allowed := true, reason := "Stop-loss triggered" }
    else { allowed := false }

/-- `RiskManager.check_take_profit` (`domain/risk.py` lines 127-140). -/
def check_take_profit (cfg : RiskConfig) (pos : Position) (current_price : ℚ) :
    RiskCheck :=
  if pos.status ≠ PositionStatus.opened then
    { allowed := false, reason := "Position not open" }
  else
    let change_pct := (current_price - pos.entry_price) / pos.entry_price * 100
    if cfg.take_profit_pct ≤ change_pct then
      { allowed := true, reason := "Take-profit triggered" }
    else { allowed := false }

/-- The Python expression `position.highest_price or position.entry_price`:
`None` and `Decimal("0")` are falsy and fall back to the entry price. -/
def effectiveHighest (pos : Position) : ℚ :=
  match pos.highest_price with
  | none => pos.entry_price
  | some h => if h = 0 then pos.entry_price else h

/-- `RiskManager.check_trailing_stop` (`domain/risk.py` lines 142-160). -/
def check_trailing_stop (cfg : RiskConfig) (pos : Position) (current_price : ℚ) :
    RiskCheck :=
  if pos.status ≠ PositionStatus.opened then
    { allowed := false, reason := "Position not open" }
  else
    let highest := effectiveHighest pos
    if highest < current_price then
      { allowed := false, reason := "New high, no trailing stop" }
    else
      let drop_from_high := (highest - current_price) / highest * 100
      if cfg.trailing_stop_pct ≤ drop_from_high then
        { allowed := true, reason := "Trailing stop" }
      else { allowed := false }

/-- `RiskManager.record_trade_pnl` (`domain/risk.py` lines 162-166). -/
def record_trade_pnl (daily : DailyPnL) (today : ℕ) (pnl : ℚ) : DailyPnL :=
  let d := resetDailyIfNeeded daily today
  { d with realized_pnl := d.realized_pnl + pnl,
           trades_today := d.trades_today + 1 }

/-- A tick dict (`process_tick` input); absent keys take the `tick.get`
defaults of `engine.py` (empty ticker, zero numerics, empty history). -/
structure Tick where
  ticker : String := ""
  price : ℚ := 0
  volume : ℚ := 0
  change_pct : ℚ := 0
  high_price : ℚ := 0
  low_price : ℚ := 0
  price_history : List ℚ := []
deriving DecidableEq, Repr

/-- The market-data dict built by `ExecutionEngine._build_market_data`
(`engine.py` lines 128-147). -/
structure MarketData where
  current_price : ℚ
  volume : ℚ
  change_pct : ℚ
  high_price : ℚ
  low_price : ℚ
  has_position : Bool
  entry_price : ℚ
  price_history : List ℚ
deriving DecidableEq, Repr

/-- A strategy's `evaluate` as a pure function (the engine `await`s it and
uses only its return value). -/
def Strat : Type := String → MarketData → Option Signal

/-- A strategy's `evaluate` that may raise: `Except.error` is an escaping
Python exception. -/
def StratExc : Type := String → MarketData → Except Unit (Option Signal)

/-- The engine's configuration slice: risk config, trading config and the
portfolio manager's converted fee rate. -/
structure EngineConfig where
  risk : RiskConfig := {}
  trading : TradingConfig := {}
  fee_rate : ℚ := mkFeeRate ((5 : ℚ) / 100)
deriving DecidableEq, Repr

/-- The engine-owned mutable state: the portfolio, the risk manager's
daily aggregate and the engine's trade log. -/
structure EngineState where
  portfolio : Portfolio
  daily : DailyPnL
  trade_log : List Trade := []
deriving DecidableEq, Repr

/-- `ExecutionEngine._build_market_data` (`engine.py` lines 128-147). -/
def build_market_data (pf : Portfolio) (ticker : String) (tick : Tick) :
    MarketData :=
  let hasPos := hasOpenPosition pf ticker
  { current_price := tick.price, volume := tick.volume,
    change_pct := tick.change_pct, high_price := tick.high_price,
    low_price := tick.low_price, has_position := hasPos,
    entry_price :=
      if hasPos then
        match pf.getPos ticker with
        | some p => p.entry_price
        | none => 0
      else 0,
    price_history := tick.price_history }

/-- `ExecutionEngine._check_risk_exits` (`engine.py` lines 66-95): the
ticker's position must be OPEN; then stop-loss, take-profit and trailing
stop are checked in that order and the first allowed one sells. -/
def check_risk_exits (cfg : EngineConfig) (pm : PortfolioManager)
    (ticker : String) (current_price : ℚ) (now : ℕ) :
    Option (PortfolioManager × Trade) :=
  match pm.portfolio.getPos ticker with
  | none => none
  | some position =>
    if position.status ≠ PositionStatus.opened then none
    else
      let sl := check_stop_loss cfg.risk position current_price
      if sl.allowed then
        execute_sell pm position.strategy_name ticker current_price sl.reason now
      else
        let tp := check_take_profit cfg.risk position current_price
        if tp.allowed then
          execute_sell pm position.strategy_name ticker current_price tp.reason now
        else
          let ts := check_trailing_stop cfg.risk position current_price
          if ts.allowed then
            execute_sell pm position.strategy_name ticker current_price ts.reason now
          else none

/-- Python truthiness of `trade.profit` in `if trade and trade.profit`
(`engine.py` line 121): `None` and `Decimal("0")` are falsy. -/
def profitTruthy (t : Trade) : Bool :=
  match t.profit with
  | none => false
  | some p => p ≠ 0

/-- `ExecutionEngine._execute_signal` (`engine.py` lines 97-126). Returns
the updated engine state and the optional trade. -/
def execute_signal (cfg : EngineConfig) (s : EngineState) (today now : ℕ)
    (sig : Signal) (current_price : ℚ) : EngineState × Option Trade :=
  match sig.signal_type with
  | SignalType.buy =>
    let buy_amount := cfg.trading.buy_amount
    let dc := check_buy cfg.risk s.daily today sig s.portfolio buy_amount
    let s1 := { s with daily := dc.1 }
    if ¬ dc.2.allowed then (s1, none)
    else
      match execute_buy ⟨s1.portfolio, cfg.fee_rate⟩ sig.strategy_name
          sig.ticker current_price buy_amount sig.reason with
      | none => (s1, none)
      | some (pm, trade) =>
        ({ s1 with portfolio := pm.portfolio,
                   trade_log := s1.trade_log ++ [trade],
                   daily := record_trade_pnl s1.daily today 0 }, some trade)
  | SignalType.sell =>
    let rc := check_sell sig s.portfolio
    if ¬ rc.allowed then (s, none)
    else
      match execute_sell ⟨s.portfolio, cfg.fee_rate⟩ sig.strategy_name
          sig.ticker current_price sig.reason now with
      | none => (s, none)
      | some (pm, trade) =>
        if profitTruthy trade then
          ({ s with portfolio := pm.portfolio,
                    trade_log := s.trade_log ++ [trade],
                    daily := record_trade_pnl s.daily today (trade.profit.getD 0) },
           some trade)
        else ({ s with portfolio := pm.portfolio }, some trade)

/-- One iteration of the strategy loop of `ExecutionEngine.process_tick`
(`engine.py` lines 55-62): evaluate the strategy on freshly built market
data and route a returned signal through `_execute_signal`. -/
def strat_step (cfg : EngineConfig) (today now : ℕ) (tick : Tick)
    (acc : EngineState × List Trade) (strat : Strat) :
    EngineState × List Trade :=
  match strat tick.ticker (build_market_data acc.1.portfolio tick.ticker tick) with
  | none => acc
  | some sig =>
    let r := execute_signal cfg acc.1 today now sig tick.price
    match r.2 with
    | some tr => (r.1, acc.2 ++ [tr])
    | none => (r.1, acc.2)

/-- `ExecutionEngine.process_tick` (`engine.py` lines 35-64) over
non-raising strategies. The guard is the source's Python truthiness test
`if not ticker or not price` (empty ticker, or price equal to zero). -/
def process_tick (cfg : EngineConfig) (strategies : List Strat)
    (s : EngineState) (today now : ℕ) (tick : Tick) :
    EngineState × List Trade :=
  if tick.ticker = "" ∨ tick.price = 0 then (s, [])
  else
    let current_price := tick.price
    let pm0 := update_highest_price ⟨s.portfolio, cfg.fee_rate⟩ tick.ticker current_price
    let s1 := { s with portfolio := pm0.portfolio }
    match check_risk_exits cfg ⟨s1.portfolio, cfg.fee_rate⟩ tick.ticker current_price now with
    | some (pm, trade) => ({ s1 with portfolio := pm.portfolio }, [trade])
    | none => strategies.foldl (strat_step cfg today now tick) (s1, [])

/-- The strategy loop of `process_tick` over possibly-raising strategies:
the source has no try/except around `strategy.evaluate`, so an exception
escapes with the mutations made so far (`Except.error` carries the state at
the raise). -/
def run_strategies_exc (cfg : EngineConfig) (today now : ℕ) (tick : Tick) :
    List StratExc → EngineState → List Trade →
    Except EngineState (EngineState × List Trade)
  | [], st, ts => Except.ok (st, ts)
  | strat :: rest, st, ts =>
    match strat tick.ticker (build_market_data st.portfolio tick.ticker tick) with
    | Except.error _ => Except.error st
    | Except.ok none => run_strategies_exc cfg today now tick rest st ts
    | Except.ok (some sig) =>
      let r := execute_signal cfg st today now sig tick.price
      match r.2 with
      | some tr => run_strategies_exc cfg today now tick rest r.1 (ts ++ [tr])
      | none => run_strategies_exc cfg today now tick rest r.1 ts

/-- `ExecutionEngine.process_tick` over possibly-raising strategies. -/
def process_tick_exc (cfg : EngineConfig) (strategies : List StratExc)
    (s : EngineState) (today now : ℕ) (tick : Tick) :
    Except EngineState (EngineState × List Trade) :=
  if tick.ticker = "" ∨ tick.price = 0 then Except.ok (s, [])
  else
    let current_price := tick.price
    let pm0 := update_highest_price ⟨s.portfolio, cfg.fee_rate⟩ tick.ticker current_price
    let s1 := { s with portfolio := pm0.portfolio }
    match check_risk_exits cfg ⟨s1.portfolio, cfg.fee_rate⟩ tick.ticker current_price now with
    | some (pm, trade) => Except.ok ({ s1 with portfolio := pm.portfolio }, [trade])
    | none => run_strategies_exc cfg today now tick strategies s1 []

/-- `ExecutionEngine.get_summary` trade-log count (`engine.py` line 159). -/
def trade_log_count (s : EngineState) : ℕ := s.trade_log.length

/-- `DipBuyStrategy` parameters (`strategies/dip_buy.py` lines 24-36),
with the constructor defaults. -/
structure DipBuyParams where
  drop_pct : ℚ := -7
  recovery_pct : ℚ := 2
  timeframe_hours : ℕ := 24
  name : String := "dip_buy"
deriving DecidableEq, Repr

/-- The Python slice `l[-k:]` for `k ≥ 1`: the last `k` elements. -/
def takeLast (l : List ℚ) (k : ℕ) : List ℚ := l.drop (l.length - k)

/-- `DipBuyStrategy.evaluate` (`strategies/dip_buy.py` lines 46-108); the
guard is the Python truthiness test `if not price_history or not
current_price`. -/
def dip_buy_evaluate (st : DipBuyParams) (ticker : String) (md : MarketData) :
    Option Signal :=
  if md.price_history = [] ∨ md.current_price = 0 then none
  else
    let history := takeLast md.price_history (st.timeframe_hours + 1)
    if history.length < 2 then none
    else
      let start_price := history.headD 0
      let change_pct := (md.current_price / start_price - 1) * 100
      let sellSig : Option Signal :=
        if md.has_position ∧ 0 < md.entry_price then
          let profit_pct := (md.current_price / md.entry_price - 1) * 100
          if st.recovery_pct ≤ profit_pct then
            some { strategy_name := st.name, ticker := ticker,
                   signal_type := SignalType.sell,
                   strength := min (profit_pct / (st.recovery_pct * 2)) 1,
                   reason := "Recovery",
                   params := [("change_pct", change_pct),
                              ("profit_pct", profit_pct),
                              ("entry_price", md.entry_price)] }
          else none
        else none
      match sellSig with
      | some sig => some sig
      | none =>
        if md.has_position = false ∧ change_pct ≤ st.drop_pct then
          some { strategy_name := st.name, ticker := ticker,
                 signal_type := SignalType.buy,
                 strength := min (|change_pct| / |st.drop_pct * 2|) 1,
                 reason := "Dip",
                 params := [("change_pct", change_pct),
                            ("start_price", start_price),
                            ("current_price", md.current_price)] }
        else none

/-! ## Concrete fixtures used by witnesses and counterexamples -/

/-- The condition under which `_execute_signal` appends a trade to the
engine trade log: BUY trades always (`if trade:`), SELL trades iff the
profit is truthy (`if trade and trade.profit:`). -/
def isLogged (t : Trade) : Bool := t.side == Side.buy || profitTruthy t

/-- The amount `_execute_signal` records with `record_trade_pnl` for a
logged trade: zero for a BUY (whose profit is null), the profit for a
SELL. -/
def pnlOf (t : Trade) : ℚ := t.profit.getD 0

/-- Modelled from the spec: `check_buy` as claim C5 words it, where
`initial_balance` is the configured initial quote balance
(`trading.initial_krw`); the source instead hard-codes
`initial = Decimal("1000000")` inside `RiskManager.check_buy`. -/
def check_buy_spec (cfg : RiskConfig) (initial_balance : ℚ) (d : DailyPnL)
    (today : ℕ) (sig : Signal) (pf : Portfolio) (amt : ℚ) :
    DailyPnL × RiskCheck :=
  let dr := resetDailyIfNeeded d today
  if sig.signal_type ≠ SignalType.buy then
    (dr, { allowed := false, reason := "Not a BUY signal" })
  else if cfg.max_positions ≤ openCount pf then
    (dr, { allowed := false, reason := "Max positions reached" })
  else if pf.krw_balance < amt then
    (dr, { allowed := false, reason := "Insufficient balance" })
  else if dr.realized_pnl / initial_balance * 100 ≤ cfg.max_daily_loss_pct then
    (dr, { allowed := false, reason := "Daily loss limit hit" })
  else if pf.total_trades > 0 ∧
      pf.total_profit / initial_balance * 100 ≤ cfg.max_drawdown_pct then
    (dr, { allowed := false, reason := "Max drawdown hit" })
  else if hasOpenPosition pf sig.ticker then
    (dr, { allowed := false, reason := "Already have open position" })
  else (dr, { allowed := true })

/-- A concrete portfolio manager: balance 1,000,000 KRW, the default
0.05 percent fee. -/
def pmW : PortfolioManager :=
  ⟨{ krw_balance := 1000000 }, mkFeeRate ((5 : ℚ) / 100)⟩

/-- The open position of the spec's concrete scenario 2: entry 50,000,000,
quantity 0.001999. -/
def posSellW : Position :=
  { strategy_name := "mock", ticker := "KRW-BTC", entry_price := 50000000,
    quantity := 1999 / 1000000, highest_price := some 50000000 }

/-- A concrete manager holding `posSellW`. -/
def pmSellW : PortfolioManager :=
  ⟨{ krw_balance := 900000, positions := [("KRW-BTC", posSellW)] },
   mkFeeRate ((5 : ℚ) / 100)⟩

/-- A zero-balance portfolio holding a (not reachable through buys, but
admitted by the data model) negative-quantity open position in "X". -/
def pmNegQtyW : PortfolioManager :=
  ⟨{ krw_balance := 0,
     positions := [("X",
       { strategy_name := "s", ticker := "X", entry_price := 1,
         quantity := -1, highest_price := some 1 })] },
   mkFeeRate ((5 : ℚ) / 100)⟩

/-- A concrete manager with zero balance and no positions. -/
def pmPoorW : PortfolioManager := ⟨{ krw_balance := 0 }, mkFeeRate ((5 : ℚ) / 100)⟩

/-- The open position of the spec's concrete scenario 4: entry 50,000,000.
-/
def posSLW : Position :=
  { strategy_name := "mock", ticker := "KRW-BTC", entry_price := 50000000,
    quantity := 2 / 1000, highest_price := some 50000000 }

/-- A daily aggregate carrying a realized loss of 50,000. -/
def dLossW : DailyPnL := { date := 0, realized_pnl := -50000 }

/-- A BUY signal for ticker "X". -/
def sigBuyW : Signal :=
  { strategy_name := "mock", ticker := "X", signal_type := SignalType.buy,
    strength := 1 / 2 }

/-- A portfolio with balance 1,000,000 and no positions. -/
def pfRichW : Portfolio := { krw_balance := 1000000 }

/-- A fresh daily aggregate for day 0. -/
def dOkW : DailyPnL := { date := 0 }

/-- A market view with history [100, 90] and current price 92, not
holding. -/
def mdDipW : MarketData :=
  { current_price := 92, volume := 0, change_pct := 0, high_price := 0,
    low_price := 0, has_position := false, entry_price := 0,
    price_history := [100, 90] }

/-- An open position in "X" with entry price 1 and quantity 1. -/
def posOpenXW : Position :=
  { strategy_name := "s", ticker := "X", entry_price := 1, quantity := 1,
    highest_price := some 1 }

/-- An engine state holding `posOpenXW` with balance 100. -/
def sOpenXW : EngineState :=
  { portfolio := { krw_balance := 100, positions := [("X", posOpenXW)] },
    daily := { date := 0 } }

/-- The portfolio manager `process_tick` builds for `sOpenXW`. -/
def pmOpenXW : PortfolioManager :=
  ⟨sOpenXW.portfolio, ({} : EngineConfig).fee_rate⟩

/-- A strategy whose evaluate raises. -/
def stratErrW : StratExc := fun _ _ => Except.error ()

/-- A strategy whose evaluate returns no signal. -/
def stratNoneW : StratExc := fun _ _ => Except.ok none

/-- A fresh engine state: balance 1,000,000, no positions, empty log. -/
def sFreshW : EngineState := { portfolio := pfRichW, daily := dOkW }

/-- A plain tick for KRW-BTC at 50,000,000. -/
def tickBuyW : Tick := { ticker := "KRW-BTC", price := 50000000 }

/-! ## Helper lemmas about the position map -/

theorem find_map_replace (ps : List (String × Position)) (t : String) (p : Position)
    (h : ps.any (fun e => e.1 == t) = true) :
    (ps.map (fun e => if e.1 == t then (t, p) else e)).find? (fun e => e.1 == t)
      = some (t, p) := by
  induction ps with
  | nil => simp at h
  | cons a as ih =>
    simp only [List.any_cons, Bool.or_eq_true] at h
    by_cases ha : (a.1 == t) = true
    · simp only [List.map_cons, ha, if_true]
      exact List.find?_cons_of_pos _ (by simp)
    · have h' : as.any (fun e => e.1 == t) = true := by
        rcases h with h | h
        · exact absurd h ha
        · exact h
      simp only [List.map_cons, ha, Bool.false_eq_true, if_false]
      rw [List.find?_cons_of_neg _ (by simpa using ha), ih h']

theorem find_map_keep (ps : List (String × Position)) (t t' : String) (p : Position)
    (h : t' ≠ t) :
    (ps.map (fun e => if e.1 == t then (t, p) else e)).find? (fun e => e.1 == t')
      = ps.find? (fun e => e.1 == t') := by
  induction ps with
  | nil => rfl
  | cons a as ih =>
    by_cases ha : (a.1 == t) = true
    · have ha' : a.1 = t := by simpa using ha
      simp only [List.map_cons, ha, if_true]
      rw [List.find?_cons_of_neg _ (by simp; exact fun hc => h hc.symm),
        List.find?_cons_of_neg _ (by simp [ha']; exact fun hc => h hc.symm), ih]
    · simp only [List.map_cons, ha, Bool.false_eq_true, if_false]
      by_cases hb : (a.1 == t') = true
      · rw [List.find?_cons_of_pos _ (by simpa using hb),
          List.find?_cons_of_pos _ (by simpa using hb)]
      · rw [List.find?_cons_of_neg _ (by simpa using hb),
          List.find?_cons_of_neg _ (by simpa using hb), ih]

theorem find_append_none (ps : List (String × Position)) (t : String) (p : Position)
    (h : ps.any (fun e => e.1 == t) = false) :
    (ps ++ [(t, p)]).find? (fun e => e.1 == t) = some (t, p) := by
  induction ps with
  | nil => exact List.find?_cons_of_pos _ (by simp)
  | cons a as ih =>
    simp only [List.any_cons, Bool.or_eq_false_iff] at h
    rw [List.cons_append, List.find?_cons_of_neg _ (by simp [h.1]), ih h.2]

theorem getPos_setPos_self (pf : Portfolio) (t : String) (p : Position) :
    Portfolio.getPos { pf with positions := setPos pf.positions t p } t = some p := by
  unfold Portfolio.getPos setPos
  by_cases h : pf.positions.any (fun e => e.1 == t) = true
  · simp only [h, if_true, find_map_replace pf.positions t p h]
    rfl
  · have h' : pf.positions.any (fun e => e.1 == t) = false := by
      rwa [Bool.not_eq_true] at h
    simp only [h', Bool.false_eq_true, if_false,
      find_append_none pf.positions t p h']
    rfl

theorem getPos_setPos_other (pf : Portfolio) (t t' : String) (p : Position)
    (h : t' ≠ t) :
    Portfolio.getPos { pf with positions := setPos pf.positions t p } t'
      = pf.getPos t' := by
  unfold Portfolio.getPos setPos
  by_cases hc : pf.positions.any (fun e => e.1 == t) = true
  · simp only [hc, if_true, find_map_keep pf.positions t t' p h]
  · have hone : ([(t, p)].find? (fun e => e.1 == t')) = none := by
      rw [List.find?_cons_of_neg _ (by simp; exact fun hc2 => h hc2.symm)]
      rfl
    simp only [hc, Bool.false_eq_true, if_false, List.find?_append, hone,
      Option.or_none]

/-! ## C1: execute_buy -/

/-- C1: for every portfolio state with `krw_balance ≥ krw_amount` and every
price > 0, `execute_buy` returns a BUY trade with
`fee = krw_amount * fee_rate` and
`quantity = krw_amount * (1 - fee_rate) / price`, decreases `krw_balance`
by exactly `krw_amount`, and creates/overwrites the ticker's position slot
with an OPEN position with `entry_price = price`, that quantity and
`highest_price = price`; no other portfolio field changes. -/
theorem execute_buy_correct (pm : PortfolioManager) (sn tk reason : String)
    (price amt : ℚ)
    (hbal : amt ≤ pm.portfolio.krw_balance) (hp : 0 < price) :
    ∃ pm' trade,
      execute_buy pm sn tk price amt reason = some (pm', trade) ∧
      trade.side = Side.buy ∧
      trade.fee = amt * pm.fee_rate ∧
      trade.quantity = amt * (1 - pm.fee_rate) / price ∧
      trade.total_krw = amt ∧
      trade.price = price ∧
      pm'.fee_rate = pm.fee_rate ∧
      pm'.portfolio.krw_balance = pm.portfolio.krw_balance - amt ∧
      pm'.portfolio.getPos tk = some
        { strategy_name := sn, ticker := tk, entry_price := price,
          quantity := amt * (1 - pm.fee_rate) / price,
          highest_price := some price, status := PositionStatus.opened } ∧
      (∀ t, t ≠ tk → pm'.portfolio.getPos t = pm.portfolio.getPos t) ∧
      pm'.portfolio.total_trades = pm.portfolio.total_trades ∧
      pm'.portfolio.winning_trades = pm.portfolio.winning_trades ∧
      pm'.portfolio.total_profit = pm.portfolio.total_profit := by
  have hng : ¬ pm.portfolio.krw_balance < amt := not_lt.mpr hbal
  have hq : amt - amt * pm.fee_rate = amt * (1 - pm.fee_rate) := by ring
  unfold execute_buy
  rw [if_neg hng]
  refine ⟨_, _, rfl, rfl, rfl, ?_, rfl, rfl, rfl, rfl, ?_, ?_, rfl, rfl, rfl⟩
  · show (amt - amt * pm.fee_rate) / price = amt * (1 - pm.fee_rate) / price
    rw [hq]
  · rw [← hq]
    exact getPos_setPos_self
      { pm.portfolio with krw_balance := pm.portfolio.krw_balance - amt } tk _
  · intro t ht
    exact getPos_setPos_other
      { pm.portfolio with krw_balance := pm.portfolio.krw_balance - amt } tk t _ ht

/-- Witness for C1 at the spec's concrete scenario 1: balance 1,000,000,
buy 100,000 at price 50,000,000. -/
theorem execute_buy_correct_witness :
    ∃ pm' trade,
      execute_buy pmW "mock" "KRW-BTC" 50000000 100000 "" = some (pm', trade) ∧
      trade.side = Side.buy ∧
      trade.quantity = 100000 * (1 - pmW.fee_rate) / 50000000 ∧
      pm'.portfolio.krw_balance = pmW.portfolio.krw_balance - 100000 := by
  obtain ⟨pm', tr, h1, h2, _, h4, _, _, _, h8, _⟩ :=
    execute_buy_correct pmW "mock" "KRW-BTC" "" 50000000 100000
      (by norm_num [pmW]) (by norm_num)
  exact ⟨pm', tr, h1, h2, h4, h8⟩

/-! ## C2: execute_sell -/

/-- C2: for every portfolio whose ticker has an OPEN position with quantity
`q` and entry price `e`, `execute_sell` at price `p` computes
`gross = q * p`, `fee = gross * fee_rate`, `net = gross - fee`,
`cost = q * e + (q * e) * fee_rate / (1 - fee_rate)`, `profit = net - cost`,
`profit_pct = profit / cost * 100` (0 if `cost ≤ 0`); it adds `net` to the
balance, increments `total_trades`, increments `winning_trades` iff
`profit > 0`, adds `profit` to `total_profit`, transitions the position to
CLOSED with `exit_price`, `exit_time`, `profit`, `profit_pct` set, and
returns a SELL trade carrying those same profit fields. -/
theorem execute_sell_correct (pm : PortfolioManager) (sn tk reason : String)
    (price : ℚ) (now : ℕ) (pos : Position)
    (hpos : pm.portfolio.getPos tk = some pos)
    (hopen : pos.status = PositionStatus.opened)
    (hfee : pm.fee_rate ≠ 1) :
    let gross := pos.quantity * price
    let fee := gross * pm.fee_rate
    let net := gross - fee
    let raw_cost := pos.quantity * pos.entry_price
    let cost := raw_cost + raw_cost * pm.fee_rate / (1 - pm.fee_rate)
    let profit := net - cost
    let profit_pct := if cost > 0 then profit / cost * 100 else 0
    ∃ pm' trade,
      execute_sell pm sn tk price reason now = some (pm', trade) ∧
      trade.side = Side.sell ∧
      trade.quantity = pos.quantity ∧
      trade.fee = fee ∧
      trade.total_krw = net ∧
      trade.profit = some profit ∧
      trade.profit_pct = some profit_pct ∧
      pm'.fee_rate = pm.fee_rate ∧
      pm'.portfolio.krw_balance = pm.portfolio.krw_balance + net ∧
      pm'.portfolio.total_trades = pm.portfolio.total_trades + 1 ∧
      pm'.portfolio.winning_trades =
        (if profit > 0 then pm.portfolio.winning_trades + 1
         else pm.portfolio.winning_trades) ∧
      pm'.portfolio.total_profit = pm.portfolio.total_profit + profit ∧
      pm'.portfolio.getPos tk = some
        { pos with
          status := PositionStatus.closed,
          exit_price := some price,
          exit_time := some now,
          profit := some profit,
          profit_pct := some profit_pct } := by
  have hno : ¬ pos.status ≠ PositionStatus.opened := by simp [hopen]
  unfold execute_sell
  simp only [hpos]
  rw [if_neg hno]
  refine ⟨_, _, rfl, rfl, rfl, rfl, rfl, rfl, rfl, rfl, rfl, rfl, rfl, rfl, ?_⟩
  exact getPos_setPos_self
    { pm.portfolio with
      krw_balance := pm.portfolio.krw_balance +
        (pos.quantity * price - pos.quantity * price * pm.fee_rate),
      total_trades := pm.portfolio.total_trades + 1,
      total_profit := pm.portfolio.total_profit +
        (pos.quantity * price - pos.quantity * price * pm.fee_rate -
          (pos.quantity * pos.entry_price +
            pos.quantity * pos.entry_price * pm.fee_rate / (1 - pm.fee_rate))),
      winning_trades :=
        if (pos.quantity * price - pos.quantity * price * pm.fee_rate -
            (pos.quantity * pos.entry_price +
              pos.quantity * pos.entry_price * pm.fee_rate / (1 - pm.fee_rate))) > 0
        then pm.portfolio.winning_trades + 1 else pm.portfolio.winning_trades } tk _

/-- Witness for C2 at the spec's concrete scenario 2: sell the scenario-1
position at 55,000,000. -/
theorem execute_sell_correct_witness :
    ∃ pm' trade,
      execute_sell pmSellW "mock" "KRW-BTC" 55000000 "" 7 = some (pm', trade) ∧
      trade.side = Side.sell ∧
      pm'.portfolio.total_trades = pmSellW.portfolio.total_trades + 1 := by
  obtain ⟨pm', tr, h1, h2, _, _, _, _, _, _, _, h10, _⟩ :=
    execute_sell_correct pmSellW "mock" "KRW-BTC" "" 55000000 7 posSellW
      (by simp [pmSellW, posSellW, Portfolio.getPos]) rfl
      (by norm_num [pmSellW, mkFeeRate])
  exact ⟨pm', tr, h1, h2, h10⟩

/-! ## C3: the balance invariant -/

/-- Counterexample to C3 as stated: from a portfolio with
`krw_balance = 0 ≥ 0` whose position has quantity −1, `execute_sell` at
price 10 drives the balance to −1999/200 < 0, so not every Portfolio
Manager operation preserves `quote_balance ≥ 0` on arbitrary portfolios. -/
theorem balance_nonneg_counterexample :
    0 ≤ pmNegQtyW.portfolio.krw_balance ∧
    (execute_sell pmNegQtyW "s" "X" 10 "" 0).map
        (fun r => r.1.portfolio.krw_balance) = some (-(1999 / 200 : ℚ)) ∧
    (-(1999 / 200 : ℚ)) < 0 := by
  refine ⟨by norm_num [pmNegQtyW], ?_, by norm_num⟩
  norm_num [pmNegQtyW, execute_sell, Portfolio.getPos, mkFeeRate, setPos]

/-- C3 (amended): `quote_balance ≥ 0` is preserved by every Portfolio
Manager operation for portfolios whose positions have nonnegative
quantities, with nonnegative prices and a fee rate in [0, 1]; `execute_buy`
with `quote_balance < quote_amount` returns null, and whenever it returns a
trade from a nonnegative balance the balance stays nonnegative with no
side condition. -/
theorem balance_nonneg_preserved :
    (∀ (pm : PortfolioManager) (sn tk reason : String) (price amt : ℚ),
      pm.portfolio.krw_balance < amt →
      execute_buy pm sn tk price amt reason = none) ∧
    (∀ (pm : PortfolioManager) (sn tk reason : String) (price amt : ℚ) r,
      0 ≤ pm.portfolio.krw_balance →
      execute_buy pm sn tk price amt reason = some r →
      0 ≤ r.1.portfolio.krw_balance) ∧
    (∀ (pm : PortfolioManager) (sn tk reason : String) (price : ℚ) (now : ℕ) r,
      0 ≤ pm.portfolio.krw_balance → 0 ≤ price →
      0 ≤ pm.fee_rate → pm.fee_rate ≤ 1 →
      (∀ p, pm.portfolio.getPos tk = some p → 0 ≤ p.quantity) →
      execute_sell pm sn tk price reason now = some r →
      0 ≤ r.1.portfolio.krw_balance) ∧
    (∀ (pm : PortfolioManager) (tk : String) (price : ℚ),
      (update_highest_price pm tk price).portfolio.krw_balance
        = pm.portfolio.krw_balance) := by
  refine ⟨?_, ?_, ?_, ?_⟩
  · intro pm sn tk reason price amt h
    unfold execute_buy
    rw [if_pos h]
  · intro pm sn tk reason price amt r h0 hr
    unfold execute_buy at hr
    by_cases hb : pm.portfolio.krw_balance < amt
    · rw [if_pos hb] at hr
      exact absurd hr (by simp)
    · rw [if_neg hb] at hr
      simp only [Option.some.injEq] at hr
      subst hr
      show 0 ≤ pm.portfolio.krw_balance - amt
      have : amt ≤ pm.portfolio.krw_balance := not_lt.mp hb
      linarith
  · intro pm sn tk reason price now r h0 hp hf0 hf1 hq hr
    unfold execute_sell at hr
    cases hpos : pm.portfolio.getPos tk with
    | none => rw [hpos] at hr; exact absurd hr (by simp)
    | some pos =>
      simp only [hpos] at hr
      by_cases hs : pos.status ≠ PositionStatus.opened
      · rw [if_pos hs] at hr
        exact absurd hr (by simp)
      · rw [if_neg hs] at hr
        simp only [Option.some.injEq] at hr
        subst hr
        show 0 ≤ pm.portfolio.krw_balance +
          (pos.quantity * price - pos.quantity * price * pm.fee_rate)
        have hq0 : 0 ≤ pos.quantity := hq pos hpos
        have hgross : 0 ≤ pos.quantity * price := mul_nonneg hq0 hp
        have hnet : 0 ≤ pos.quantity * price - pos.quantity * price * pm.fee_rate := by
          have : pos.quantity * price * pm.fee_rate ≤ pos.quantity * price * 1 :=
            mul_le_mul_of_nonneg_left hf1 hgross
          linarith
        linarith
  · intro pm tk price
    unfold update_highest_price
    cases hpos : pm.portfolio.getPos tk with
    | none => rfl
    | some pos =>
      dsimp only
      by_cases hcond : pos.status = PositionStatus.opened ∧ hpUpdateNeeded pos price = true
      · rw [if_pos hcond]
      · rw [if_neg hcond]

/-- Witness for C3 (amended): the insufficient-funds rejection and the
sell-side preservation at concrete inputs. -/
theorem balance_nonneg_preserved_witness :
    execute_buy pmPoorW "s" "X" 10 100000 "" = none ∧
    (∀ r, execute_sell pmSellW "mock" "KRW-BTC" 55000000 "" 7 = some r →
      0 ≤ r.1.portfolio.krw_balance) := by
  constructor
  · exact balance_nonneg_preserved.1 pmPoorW "s" "X" "" 10 100000
      (by norm_num [pmPoorW])
  · intro r hr
    refine balance_nonneg_preserved.2.2.1 pmSellW "mock" "KRW-BTC" "" 55000000 7 r
      (by norm_num [pmSellW]) (by norm_num)
      (by norm_num [pmSellW, mkFeeRate]) (by norm_num [pmSellW, mkFeeRate])
      ?_ hr
    intro p hp
    rw [show pmSellW.portfolio.getPos "KRW-BTC" = some posSellW from by
      simp [pmSellW, posSellW, Portfolio.getPos]] at hp
    injection hp with h
    rw [← h]
    norm_num [posSellW]

/-! ## C8: exit checks and boundary inclusivity -/

/-- C8: for every OPEN position with entry price `e` and current price `p`,
`check_stop_loss` is allowed iff `(p - e)/e * 100 ≤ stop_loss_pct`
(boundary inclusive), `check_take_profit` is allowed iff
`(p - e)/e * 100 ≥ take_profit_pct` (inclusive), `check_trailing_stop`
never triggers when `p > highest_price` and otherwise is allowed iff
`(highest - p)/highest * 100 ≥ trailing_stop_pct` (inclusive), and for
every CLOSED position all three checks return not-allowed. -/
theorem exit_checks_correct (cfg : RiskConfig) (pos : Position) (p : ℚ) :
    (pos.status = PositionStatus.opened → 0 < pos.entry_price →
      (((check_stop_loss cfg pos p).allowed = true ↔
          (p - pos.entry_price) / pos.entry_price * 100 ≤ cfg.stop_loss_pct) ∧
       ((check_take_profit cfg pos p).allowed = true ↔
          cfg.take_profit_pct ≤ (p - pos.entry_price) / pos.entry_price * 100))) ∧
    (pos.status = PositionStatus.opened →
      ∀ h, pos.highest_price = some h → 0 < h →
      ((h < p → (check_trailing_stop cfg pos p).allowed = false) ∧
       (p ≤ h →
         ((check_trailing_stop cfg pos p).allowed = true ↔
           cfg.trailing_stop_pct ≤ (h - p) / h * 100)))) ∧
    (pos.status = PositionStatus.closed →
      (check_stop_loss cfg pos p).allowed = false ∧
      (check_take_profit cfg pos p).allowed = false ∧
      (check_trailing_stop cfg pos p).allowed = false) := by
  refine ⟨?_, ?_, ?_⟩
  · intro ho he
    have hno : ¬ pos.status ≠ PositionStatus.opened := by simp [ho]
    constructor
    · unfold check_stop_loss
      rw [if_neg hno]
      by_cases hc : (p - pos.entry_price) / pos.entry_price * 100 ≤ cfg.stop_loss_pct
      · simp [hc]
      · simp [hc]
    · unfold check_take_profit
      rw [if_neg hno]
      by_cases hc : cfg.take_profit_pct ≤ (p - pos.entry_price) / pos.entry_price * 100
      · simp [hc]
      · simp [hc]
  · intro ho h hh hh0
    have hno : ¬ pos.status ≠ PositionStatus.opened := by simp [ho]
    have heff : effectiveHighest pos = h := by
      unfold effectiveHighest
      rw [hh]
      exact if_neg (ne_of_gt hh0)
    constructor
    · intro hlt
      unfold check_trailing_stop
      rw [if_neg hno, heff, if_pos hlt]
    · intro hle
      unfold check_trailing_stop
      rw [if_neg hno, heff, if_neg (not_lt.mpr hle)]
      by_cases hc : cfg.trailing_stop_pct ≤ (h - p) / h * 100
      · simp [hc]
      · simp [hc]
  · intro hcl
    have hne : pos.status ≠ PositionStatus.opened := by
      rw [hcl]
      intro hx
      cases hx
    refine ⟨?_, ?_, ?_⟩
    · unfold check_stop_loss
      rw [if_pos hne]
    · unfold check_take_profit
      rw [if_pos hne]
    · unfold check_trailing_stop
      rw [if_pos hne]

/-- Witness for C8 at the spec's concrete scenario 4: a tick at exactly
−5 percent from entry triggers stop-loss with the default config, and the
same tick does not trigger the trailing stop check's new-high branch. -/
theorem exit_checks_correct_witness :
    (check_stop_loss {} posSLW 47500000).allowed = true ∧
    (check_stop_loss {} posSLW 50000001).allowed = false ∧
    (check_trailing_stop {} posSLW 50000001).allowed = false := by
  have H := exit_checks_correct {} posSLW 47500000
  have H2 := exit_checks_correct {} posSLW 50000001
  refine ⟨?_, ?_, ?_⟩
  · exact ((H.1 rfl (by norm_num [posSLW])).1).mpr (by norm_num [posSLW])
  · have hiff := (H2.1 rfl (by norm_num [posSLW])).1
    have hnc : ¬ ((50000001 - posSLW.entry_price) / posSLW.entry_price * 100 ≤
        ({} : RiskConfig).stop_loss_pct) := by norm_num [posSLW]
    cases hb : (check_stop_loss {} posSLW 50000001).allowed
    · rfl
    · exact absurd (hiff.mp hb) hnc
  · exact (H2.2.1 rfl 50000000 rfl (by norm_num)).1 (by norm_num)

/-! ## C5: check_buy precedence -/

/-- C5 (amended): `check_buy` applies the six checks in a fixed precedence
with the first failing check determining the rejection reason, and is
allowed iff none fails — with `initial_balance` being the constant
1,000,000 hard-coded in the source, not the configured initial quote
balance. -/
theorem check_buy_rules (cfg : RiskConfig) (d : DailyPnL) (today : ℕ)
    (sig : Signal) (pf : Portfolio) (amt : ℚ)
    (hd : d.date = today) :
    ((check_buy cfg d today sig pf amt).1 = d) ∧
    ((check_buy cfg d today sig pf amt).2.allowed = true ↔
      (sig.signal_type = SignalType.buy ∧
       openCount pf < cfg.max_positions ∧
       amt ≤ pf.krw_balance ∧
       cfg.max_daily_loss_pct < d.realized_pnl / 1000000 * 100 ∧
       (0 < pf.total_trades → cfg.max_drawdown_pct < pf.total_profit / 1000000 * 100) ∧
       hasOpenPosition pf sig.ticker = false)) ∧
    (sig.signal_type ≠ SignalType.buy →
      (check_buy cfg d today sig pf amt).2.reason = "Not a BUY signal") ∧
    (sig.signal_type = SignalType.buy →
      cfg.max_positions ≤ openCount pf →
      (check_buy cfg d today sig pf amt).2.reason = "Max positions reached") ∧
    (sig.signal_type = SignalType.buy →
      openCount pf < cfg.max_positions →
      pf.krw_balance < amt →
      (check_buy cfg d today sig pf amt).2.reason = "Insufficient balance") ∧
    (sig.signal_type = SignalType.buy →
      openCount pf < cfg.max_positions →
      amt ≤ pf.krw_balance →
      d.realized_pnl / 1000000 * 100 ≤ cfg.max_daily_loss_pct →
      (check_buy cfg d today sig pf amt).2.reason = "Daily loss limit hit") ∧
    (sig.signal_type = SignalType.buy →
      openCount pf < cfg.max_positions →
      amt ≤ pf.krw_balance →
      cfg.max_daily_loss_pct < d.realized_pnl / 1000000 * 100 →
      0 < pf.total_trades →
      pf.total_profit / 1000000 * 100 ≤ cfg.max_drawdown_pct →
      (check_buy cfg d today sig pf amt).2.reason = "Max drawdown hit") ∧
    (sig.signal_type = SignalType.buy →
      openCount pf < cfg.max_positions →
      amt ≤ pf.krw_balance →
      cfg.max_daily_loss_pct < d.realized_pnl / 1000000 * 100 →
      (0 < pf.total_trades → cfg.max_drawdown_pct < pf.total_profit / 1000000 * 100) →
      hasOpenPosition pf sig.ticker = true →
      (check_buy cfg d today sig pf amt).2.reason = "Already have open position") := by
  have hreset : resetDailyIfNeeded d today = d := by
    simp [resetDailyIfNeeded, hd]
  simp only [check_buy, hreset]
  split_ifs with h1 h2 h3 h4 h5 h6 <;>
    refine ⟨rfl, ?_, ?_, ?_, ?_, ?_, ?_, ?_⟩ <;>
    push_neg at * <;>
    simp_all

/-- Counterexample to C5 as stated: with a realized daily loss of 50,000
and a configured initial quote balance of 2,000,000, the source's
`check_buy` rejects (the hard-coded 1,000,000 makes the loss −5 percent,
beyond the −3 percent limit) while the claim's formula over the configured
initial balance (−2.5 percent) allows — so `initial_balance` in the code
is not the configured initial quote balance. -/
theorem check_buy_initial_counterexample :
    (check_buy {} dLossW 0 sigBuyW pfRichW 100000).2.allowed = false ∧
    (check_buy_spec {} 2000000 dLossW 0 sigBuyW pfRichW 100000).2.allowed = true := by
  constructor
  · norm_num [check_buy, resetDailyIfNeeded, openCount, hasOpenPosition,
      Portfolio.getPos, dLossW, sigBuyW, pfRichW]
  · norm_num [check_buy_spec, resetDailyIfNeeded, openCount, hasOpenPosition,
      Portfolio.getPos, dLossW, sigBuyW, pfRichW]

/-- Witness for C5 (amended): a BUY signal passing all six checks. -/
theorem check_buy_rules_witness :
    (check_buy {} dOkW 0 sigBuyW pfRichW 100000).2.allowed = true := by
  have H := check_buy_rules {} dOkW 0 sigBuyW pfRichW 100000 rfl
  refine H.2.1.mpr ⟨rfl, ?_, ?_, ?_, ?_, ?_⟩
  · simp [openCount, pfRichW]
  · norm_num [pfRichW]
  · norm_num [dOkW]
  · intro h
    exact absurd h (by simp [pfRichW])
  · simp [hasOpenPosition, Portfolio.getPos, pfRichW, sigBuyW]

/-! ## C9: DipBuy evaluate -/

/-- C9: for every market view with non-empty price history and positive
current price, DipBuy trims the history to the last `timeframe_hours + 1`
points and returns no signal with fewer than 2 kept points; with
`change_pct = (current/start − 1) × 100` over the oldest kept price, it
emits SELL when holding with `entry_price > 0` and
`profit_pct = (current/entry − 1) × 100 ≥ recovery_pct`, with strength
`min(profit_pct / (2·recovery_pct), 1)`; emits BUY when not holding and
`change_pct ≤ drop_pct`, with strength
`min(|change_pct| / (2·|drop_pct|), 1)`; and otherwise returns no
signal. -/
theorem dip_buy_evaluate_correct (st : DipBuyParams) (ticker : String)
    (md : MarketData)
    (hh : md.price_history ≠ []) (hc : 0 < md.current_price) :
    ((takeLast md.price_history (st.timeframe_hours + 1)).length < 2 →
      dip_buy_evaluate st ticker md = none) ∧
    (2 ≤ (takeLast md.price_history (st.timeframe_hours + 1)).length →
     0 < (takeLast md.price_history (st.timeframe_hours + 1)).headD 0 →
     ((md.has_position = true → 0 < md.entry_price →
        st.recovery_pct ≤ (md.current_price / md.entry_price - 1) * 100 →
        dip_buy_evaluate st ticker md = some
          { strategy_name := st.name, ticker := ticker,
            signal_type := SignalType.sell,
            strength :=
              min ((md.current_price / md.entry_price - 1) * 100 /
                (2 * st.recovery_pct)) 1,
            reason := "Recovery",
            params :=
              [("change_pct",
                (md.current_price /
                  (takeLast md.price_history (st.timeframe_hours + 1)).headD 0 - 1) * 100),
               ("profit_pct", (md.current_price / md.entry_price - 1) * 100),
               ("entry_price", md.entry_price)] }) ∧
      (md.has_position = false →
        (md.current_price /
          (takeLast md.price_history (st.timeframe_hours + 1)).headD 0 - 1) * 100
            ≤ st.drop_pct →
        dip_buy_evaluate st ticker md = some
          { strategy_name := st.name, ticker := ticker,
            signal_type := SignalType.buy,
            strength :=
              min (|(md.current_price /
                (takeLast md.price_history (st.timeframe_hours + 1)).headD 0 - 1) * 100| /
                (2 * |st.drop_pct|)) 1,
            reason := "Dip",
            params :=
              [("change_pct",
                (md.current_price /
                  (takeLast md.price_history (st.timeframe_hours + 1)).headD 0 - 1) * 100),
               ("start_price",
                (takeLast md.price_history (st.timeframe_hours + 1)).headD 0),
               ("current_price", md.current_price)] }) ∧
      (¬(md.has_position = true ∧ 0 < md.entry_price ∧
          st.recovery_pct ≤ (md.current_price / md.entry_price - 1) * 100) →
       ¬(md.has_position = false ∧
          (md.current_price /
            (takeLast md.price_history (st.timeframe_hours + 1)).headD 0 - 1) * 100
              ≤ st.drop_pct) →
       dip_buy_evaluate st ticker md = none))) := by
  have hg : ¬(md.price_history = [] ∨ md.current_price = 0) := by
    push_neg
    exact ⟨hh, ne_of_gt hc⟩
  constructor
  · intro hlen
    unfold dip_buy_evaluate
    rw [if_neg hg, if_pos hlen]
  · intro hlen hstart
    have hlen' : ¬ (takeLast md.price_history (st.timeframe_hours + 1)).length < 2 :=
      not_lt.mpr hlen
    refine ⟨?_, ?_, ?_⟩
    · intro hpos hentry hrec
      unfold dip_buy_evaluate
      rw [if_neg hg, if_neg hlen']
      dsimp only
      rw [if_pos (show (md.has_position : Prop) ∧ 0 < md.entry_price from ⟨hpos, hentry⟩),
        if_pos hrec]
      dsimp only
      congr 1
      rw [mul_comm st.recovery_pct 2]
    · intro hpos hdrop
      unfold dip_buy_evaluate
      rw [if_neg hg, if_neg hlen']
      dsimp only
      rw [if_neg (show ¬((md.has_position : Prop) ∧ 0 < md.entry_price) from by
        rw [hpos]
        simp)]
      dsimp only
      rw [if_pos (⟨hpos, hdrop⟩ :
        md.has_position = false ∧
          (md.current_price /
            (takeLast md.price_history (st.timeframe_hours + 1)).headD 0 - 1) * 100
              ≤ st.drop_pct)]
      have habs : |st.drop_pct * 2| = 2 * |st.drop_pct| := by
        rw [abs_mul, abs_two, mul_comm]
      rw [habs]
    · intro hnot1 hnot2
      unfold dip_buy_evaluate
      rw [if_neg hg, if_neg hlen']
      dsimp only
      by_cases hA : (md.has_position : Prop) ∧ 0 < md.entry_price
      · by_cases hB : st.recovery_pct ≤ (md.current_price / md.entry_price - 1) * 100
        · exact absurd ⟨hA.1, hA.2, hB⟩ hnot1
        · rw [if_pos hA, if_neg hB]
          dsimp only
          rw [if_neg hnot2]
      · rw [if_neg hA]
        dsimp only
        rw [if_neg hnot2]

/-- Witness for C9: with the default parameters, a drop from 100 to 92
(−8 percent against drop_pct = −7) emits a BUY signal. -/
theorem dip_buy_evaluate_correct_witness :
    (dip_buy_evaluate {} "X" mdDipW).map (fun s => s.signal_type)
      = some SignalType.buy := by
  have H := dip_buy_evaluate_correct {} "X" mdDipW
    (by simp [mdDipW]) (by norm_num [mdDipW])
  rw [(H.2 (by simp [mdDipW, takeLast]) (by norm_num [mdDipW, takeLast])).2.1 rfl
    (by norm_num [mdDipW, takeLast])]
  rfl

/-! ## Engine helper lemmas -/

theorem execute_sell_isSome (pm : PortfolioManager) (sn tk reason : String)
    (price : ℚ) (now : ℕ) (pos : Position)
    (hpos : pm.portfolio.getPos tk = some pos)
    (hopen : pos.status = PositionStatus.opened) :
    ∃ r, execute_sell pm sn tk price reason now = some r := by
  unfold execute_sell
  simp only [hpos]
  rw [if_neg (by simp [hopen])]
  exact ⟨_, rfl⟩

theorem execute_sell_shape (pm : PortfolioManager) (sn tk reason : String)
    (price : ℚ) (now : ℕ) (r : PortfolioManager × Trade)
    (hr : execute_sell pm sn tk price reason now = some r) :
    r.2.side = Side.sell ∧
    ∃ pos, pm.portfolio.getPos tk = some pos ∧
      r.1.portfolio.krw_balance
        = pm.portfolio.krw_balance +
          (pos.quantity * price - pos.quantity * price * pm.fee_rate) := by
  unfold execute_sell at hr
  cases hpos : pm.portfolio.getPos tk with
  | none => rw [hpos] at hr; exact absurd hr (by simp)
  | some pos =>
    simp only [hpos] at hr
    by_cases hs : pos.status ≠ PositionStatus.opened
    · rw [if_pos hs] at hr
      exact absurd hr (by simp)
    · rw [if_neg hs] at hr
      simp only [Option.some.injEq] at hr
      subst hr
      exact ⟨rfl, pos, rfl, rfl⟩

theorem check_risk_exits_fires (cfg : EngineConfig) (pm : PortfolioManager)
    (tk : String) (price : ℚ) (now : ℕ) (pos : Position)
    (hpos : pm.portfolio.getPos tk = some pos)
    (hopen : pos.status = PositionStatus.opened)
    (htrig : (check_stop_loss cfg.risk pos price).allowed = true ∨
             (check_take_profit cfg.risk pos price).allowed = true ∨
             (check_trailing_stop cfg.risk pos price).allowed = true) :
    check_risk_exits cfg pm tk price now
      = execute_sell pm pos.strategy_name tk price
          (if (check_stop_loss cfg.risk pos price).allowed then
             (check_stop_loss cfg.risk pos price).reason
           else if (check_take_profit cfg.risk pos price).allowed then
             (check_take_profit cfg.risk pos price).reason
           else (check_trailing_stop cfg.risk pos price).reason) now := by
  unfold check_risk_exits
  simp only [hpos]
  rw [if_neg (by simp [hopen])]
  cases hsl : (check_stop_loss cfg.risk pos price).allowed
  · cases htp : (check_take_profit cfg.risk pos price).allowed
    · cases hts : (check_trailing_stop cfg.risk pos price).allowed
      · rcases htrig with h | h | h <;> simp_all
      · simp [hsl, htp, hts]
    · simp [hsl, htp]
  · simp [hsl]

theorem process_tick_exit_eq (cfg : EngineConfig) (strategies : List Strat)
    (s : EngineState) (today now : ℕ) (tick : Tick)
    (pm' : PortfolioManager) (tr : Trade)
    (hg : ¬(tick.ticker = "" ∨ tick.price = 0))
    (hx : check_risk_exits cfg
        ⟨(update_highest_price ⟨s.portfolio, cfg.fee_rate⟩ tick.ticker tick.price).portfolio,
         cfg.fee_rate⟩ tick.ticker tick.price now = some (pm', tr)) :
    process_tick cfg strategies s today now tick
      = ({ portfolio := pm'.portfolio, daily := s.daily,
           trade_log := s.trade_log }, [tr]) := by
  unfold process_tick
  rw [if_neg hg]
  dsimp only
  rw [hx]

/-! ## C6: tick guard -/

/-- C6 (amended): for every tick with an empty/missing ticker or a missing
or zero price, `process_tick` returns an empty trade list and performs no
state mutation; negative prices, however, pass the source's truthiness
guard and are processed. -/
theorem process_tick_guard (cfg : EngineConfig) (strategies : List Strat)
    (s : EngineState) (today now : ℕ) (tick : Tick)
    (h : tick.ticker = "" ∨ tick.price = 0) :
    process_tick cfg strategies s today now tick = (s, []) := by
  unfold process_tick
  rw [if_pos h]

/-- Witness for C6 (amended): a tick with a missing (defaulted to zero)
price is rejected without mutation. -/
theorem process_tick_guard_witness :
    process_tick {} [] { portfolio := pfRichW, daily := dOkW } 0 0
      { ticker := "KRW-BTC" } = ({ portfolio := pfRichW, daily := dOkW }, []) :=
  process_tick_guard {} [] _ 0 0 _ (Or.inr rfl)

theorem pmOpenXW_getPos : pmOpenXW.portfolio.getPos "X" = some posOpenXW := by
  simp [pmOpenXW, sOpenXW, Portfolio.getPos]

theorem update_hp_noop_of_le (pm : PortfolioManager) (tk : String) (price h : ℚ)
    (pos : Position) (hpos : pm.portfolio.getPos tk = some pos)
    (hh : pos.highest_price = some h) (hle : price ≤ h) :
    update_highest_price pm tk price = pm := by
  unfold update_highest_price
  rw [hpos]
  dsimp only
  rw [if_neg]
  intro hc
  have := hc.2
  rw [hpUpdateNeeded, hh] at this
  simp only [decide_eq_true_eq] at this
  exact absurd this (not_lt.mpr hle)

/-- Counterexample to C6 as stated: a tick for "X" with the non-positive
price −1 is not rejected — with an open position at entry 1 the stop-loss
fires, `process_tick` returns one SELL trade and the balance changes. -/
theorem process_tick_negative_price_counterexample :
    ({ ticker := "X", price := -1 } : Tick).price ≤ 0 ∧
    ∃ (pm' : PortfolioManager) (tr : Trade),
      process_tick {} [] sOpenXW 0 0 { ticker := "X", price := -1 }
        = ({ portfolio := pm'.portfolio, daily := sOpenXW.daily,
             trade_log := sOpenXW.trade_log }, [tr]) ∧
      tr.side = Side.sell ∧
      pm'.portfolio.krw_balance ≠ sOpenXW.portfolio.krw_balance := by
  refine ⟨by norm_num, ?_⟩
  have hnoup : update_highest_price pmOpenXW "X" (-1) = pmOpenXW :=
    update_hp_noop_of_le pmOpenXW "X" (-1) 1 posOpenXW pmOpenXW_getPos rfl
      (by norm_num)
  have hpos1 : (update_highest_price pmOpenXW "X" (-1)).portfolio.getPos "X"
      = some posOpenXW := by rw [hnoup]; exact pmOpenXW_getPos
  have htrig : (check_stop_loss ({} : EngineConfig).risk posOpenXW (-1)).allowed = true := by
    unfold check_stop_loss
    rw [if_neg (by simp [posOpenXW])]
    rw [if_pos (by norm_num [posOpenXW])]
  obtain ⟨⟨pm', tr⟩, he⟩ :=
    execute_sell_isSome
      ⟨(update_highest_price pmOpenXW "X" (-1)).portfolio, ({} : EngineConfig).fee_rate⟩
      posOpenXW.strategy_name "X"
      (if (check_stop_loss ({} : EngineConfig).risk posOpenXW (-1)).allowed then
         (check_stop_loss ({} : EngineConfig).risk posOpenXW (-1)).reason
       else if (check_take_profit ({} : EngineConfig).risk posOpenXW (-1)).allowed then
         (check_take_profit ({} : EngineConfig).risk posOpenXW (-1)).reason
       else (check_trailing_stop ({} : EngineConfig).risk posOpenXW (-1)).reason)
      (-1) 0 posOpenXW hpos1 rfl
  obtain ⟨hside, pos2, hpos2, hbal⟩ :=
    execute_sell_shape _ _ _ _ _ _ _ he
  have hpos2' : pos2 = posOpenXW := by
    rw [hpos1] at hpos2
    exact (Option.some.inj hpos2).symm
  subst hpos2'
  refine ⟨pm', tr, ?_, hside, ?_⟩
  · refine process_tick_exit_eq {} [] sOpenXW 0 0 { ticker := "X", price := -1 } pm' tr
      (by simp) ?_
    exact (check_risk_exits_fires {} pmOpenXW "X" (-1) 0 posOpenXW pmOpenXW_getPos rfl
      (Or.inl htrig)).trans he
  · rw [hbal, hnoup]
    norm_num [pmOpenXW, sOpenXW, posOpenXW, mkFeeRate]

/-! ## C4: risk exits are checked first and return immediately -/

/-- C4 (amended): for every tick whose ticker has an OPEN position,
`process_tick` evaluates exits in the order stop-loss → take-profit →
trailing-stop; on the first one that triggers it executes the sell via the
Portfolio Manager and returns immediately with exactly that one trade,
without evaluating any strategy on that tick — but the realized PnL of the
exit is not recorded with the Risk Manager: the daily aggregate and the
engine trade log are left unchanged. -/
theorem risk_exit_first (cfg : EngineConfig) (strategies : List Strat)
    (s : EngineState) (today now : ℕ) (tick : Tick) (pos : Position)
    (hg : ¬(tick.ticker = "" ∨ tick.price = 0))
    (hpos : (update_highest_price ⟨s.portfolio, cfg.fee_rate⟩ tick.ticker
        tick.price).portfolio.getPos tick.ticker = some pos)
    (hopen : pos.status = PositionStatus.opened)
    (htrig : (check_stop_loss cfg.risk pos tick.price).allowed = true ∨
             (check_take_profit cfg.risk pos tick.price).allowed = true ∨
             (check_trailing_stop cfg.risk pos tick.price).allowed = true) :
    ∃ (pm' : PortfolioManager) (tr : Trade),
      execute_sell
          ⟨(update_highest_price ⟨s.portfolio, cfg.fee_rate⟩ tick.ticker
              tick.price).portfolio, cfg.fee_rate⟩
          pos.strategy_name tick.ticker tick.price
          (if (check_stop_loss cfg.risk pos tick.price).allowed then
             (check_stop_loss cfg.risk pos tick.price).reason
           else if (check_take_profit cfg.risk pos tick.price).allowed then
             (check_take_profit cfg.risk pos tick.price).reason
           else (check_trailing_stop cfg.risk pos tick.price).reason) now
        = some (pm', tr) ∧
      process_tick cfg strategies s today now tick
        = ({ portfolio := pm'.portfolio, daily := s.daily,
             trade_log := s.trade_log }, [tr]) := by
  obtain ⟨⟨pm', tr⟩, he⟩ :=
    execute_sell_isSome
      ⟨(update_highest_price ⟨s.portfolio, cfg.fee_rate⟩ tick.ticker
          tick.price).portfolio, cfg.fee_rate⟩
      pos.strategy_name tick.ticker
      (if (check_stop_loss cfg.risk pos tick.price).allowed then
         (check_stop_loss cfg.risk pos tick.price).reason
       else if (check_take_profit cfg.risk pos tick.price).allowed then
         (check_take_profit cfg.risk pos tick.price).reason
       else (check_trailing_stop cfg.risk pos tick.price).reason)
      tick.price now pos hpos hopen
  refine ⟨pm', tr, he, ?_⟩
  exact process_tick_exit_eq cfg strategies s today now tick pm' tr hg
    ((check_risk_exits_fires cfg
      ⟨(update_highest_price ⟨s.portfolio, cfg.fee_rate⟩ tick.ticker
          tick.price).portfolio, cfg.fee_rate⟩
      tick.ticker tick.price now pos hpos hopen htrig).trans he)

/-- Witness for C4 (amended): a stop-loss tick at price 9/10 against entry
1 fires and returns exactly one trade with the daily aggregate and trade
log untouched. -/
theorem risk_exit_first_witness :
    (process_tick {} [] sOpenXW 0 0 { ticker := "X", price := 9 / 10 }).1.daily
        = sOpenXW.daily ∧
    (process_tick {} [] sOpenXW 0 0 { ticker := "X", price := 9 / 10 }).1.trade_log
        = sOpenXW.trade_log ∧
    (process_tick {} [] sOpenXW 0 0 { ticker := "X", price := 9 / 10 }).2.length
        = 1 := by
  have hnoup : update_highest_price pmOpenXW "X" (9 / 10) = pmOpenXW :=
    update_hp_noop_of_le pmOpenXW "X" (9 / 10) 1 posOpenXW pmOpenXW_getPos rfl
      (by norm_num)
  have hpos1 : (update_highest_price pmOpenXW "X" (9 / 10)).portfolio.getPos "X"
      = some posOpenXW := by rw [hnoup]; exact pmOpenXW_getPos
  have htrig : (check_stop_loss ({} : EngineConfig).risk posOpenXW (9 / 10)).allowed
      = true := by
    unfold check_stop_loss
    rw [if_neg (by simp [posOpenXW]), if_pos (by norm_num [posOpenXW])]
  obtain ⟨pm', tr, _, hpt⟩ :=
    risk_exit_first {} [] sOpenXW 0 0 { ticker := "X", price := 9 / 10 } posOpenXW
      (by simp) hpos1 rfl (Or.inl htrig)
  rw [hpt]
  exact ⟨rfl, rfl, rfl⟩

/-- Counterexample to C4 as stated: at a tick that fires the stop-loss,
`process_tick` returns the exit trade but the Risk Manager's daily
aggregate is NOT updated (`record_trade_pnl` is never called on the exit
path), contradicting the claim that the realized PnL is recorded with the
daily aggregate. -/
theorem risk_exit_no_pnl_record_counterexample :
    (process_tick {} [] sOpenXW 0 0 { ticker := "X", price := 9 / 10 }).2 ≠ [] ∧
    (process_tick {} [] sOpenXW 0 0
        { ticker := "X", price := 9 / 10 }).1.daily.trades_today
      = sOpenXW.daily.trades_today ∧
    (process_tick {} [] sOpenXW 0 0
        { ticker := "X", price := 9 / 10 }).1.daily.realized_pnl
      = sOpenXW.daily.realized_pnl := by
  have hnoup : update_highest_price pmOpenXW "X" (9 / 10) = pmOpenXW :=
    update_hp_noop_of_le pmOpenXW "X" (9 / 10) 1 posOpenXW pmOpenXW_getPos rfl
      (by norm_num)
  have hpos1 : (update_highest_price pmOpenXW "X" (9 / 10)).portfolio.getPos "X"
      = some posOpenXW := by rw [hnoup]; exact pmOpenXW_getPos
  have htrig : (check_stop_loss ({} : EngineConfig).risk posOpenXW (9 / 10)).allowed
      = true := by
    unfold check_stop_loss
    rw [if_neg (by simp [posOpenXW]), if_pos (by norm_num [posOpenXW])]
  obtain ⟨⟨pm', tr⟩, he⟩ :=
    execute_sell_isSome
      ⟨(update_highest_price pmOpenXW "X" (9 / 10)).portfolio,
       ({} : EngineConfig).fee_rate⟩
      posOpenXW.strategy_name "X"
      (if (check_stop_loss ({} : EngineConfig).risk posOpenXW (9 / 10)).allowed then
         (check_stop_loss ({} : EngineConfig).risk posOpenXW (9 / 10)).reason
       else if (check_take_profit ({} : EngineConfig).risk posOpenXW (9 / 10)).allowed then
         (check_take_profit ({} : EngineConfig).risk posOpenXW (9 / 10)).reason
       else (check_trailing_stop ({} : EngineConfig).risk posOpenXW (9 / 10)).reason)
      (9 / 10) 0 posOpenXW hpos1 rfl
  have hpt := process_tick_exit_eq {} [] sOpenXW 0 0 { ticker := "X", price := 9 / 10 }
    pm' tr (by simp)
    ((check_risk_exits_fires {}
      ⟨(update_highest_price pmOpenXW "X" (9 / 10)).portfolio,
       ({} : EngineConfig).fee_rate⟩
      "X" (9 / 10) 0 posOpenXW hpos1 rfl (Or.inl htrig)).trans he)
  rw [hpt]
  exact ⟨by simp, rfl, rfl⟩

/-! ## C7: strategy evaluation faults -/

/-- C7 (amended): the source has no try/except around `strategy.evaluate`,
so an exception raised by a strategy during `process_tick` propagates out
of the tick: the remaining strategies are not evaluated and no trade list
is returned (the state mutated before the raise escapes with the
exception). -/
theorem strategy_error_aborts (cfg : EngineConfig) (strat : StratExc)
    (rest : List StratExc) (s : EngineState) (today now : ℕ) (tick : Tick)
    (hg : ¬(tick.ticker = "" ∨ tick.price = 0))
    (hexit : check_risk_exits cfg
        ⟨(update_highest_price ⟨s.portfolio, cfg.fee_rate⟩ tick.ticker
            tick.price).portfolio, cfg.fee_rate⟩ tick.ticker tick.price now = none)
    (herr : strat tick.ticker
        (build_market_data
          (update_highest_price ⟨s.portfolio, cfg.fee_rate⟩ tick.ticker
            tick.price).portfolio tick.ticker tick) = Except.error ()) :
    process_tick_exc cfg (strat :: rest) s today now tick
      = Except.error
          { s with portfolio :=
            (update_highest_price ⟨s.portfolio, cfg.fee_rate⟩ tick.ticker
              tick.price).portfolio } := by
  unfold process_tick_exc
  rw [if_neg hg]
  dsimp only
  rw [hexit]
  unfold run_strategies_exc
  rw [herr]

/-- Witness for C7 (amended): at a concrete tick a raising strategy makes
the tick abort with the exception. -/
theorem strategy_error_aborts_witness :
    process_tick_exc {} [stratErrW, stratNoneW] sFreshW 0 0 tickBuyW
      = Except.error
          { sFreshW with portfolio :=
            (update_highest_price ⟨sFreshW.portfolio, ({} : EngineConfig).fee_rate⟩
              tickBuyW.ticker tickBuyW.price).portfolio } := by
  refine strategy_error_aborts {} stratErrW [stratNoneW] sFreshW 0 0 tickBuyW
    ?_ ?_ rfl
  · rintro (h | h)
    · exact absurd h (by simp [tickBuyW])
    · exact absurd h (by norm_num [tickBuyW])
  · simp [check_risk_exits, update_highest_price, Portfolio.getPos,
      sFreshW, pfRichW]

/-- Counterexample to C7 as stated: with a raising strategy followed by a
well-behaved one, `process_tick` propagates the exception instead of
isolating it — whereas the well-behaved strategy alone completes the tick
— so the error is not treated as "no signal" and the remaining strategies
are not evaluated. -/
theorem strategy_error_counterexample :
    process_tick_exc {} [stratErrW, stratNoneW] sFreshW 0 0 tickBuyW
      = Except.error sFreshW ∧
    process_tick_exc {} [stratNoneW] sFreshW 0 0 tickBuyW
      = Except.ok (sFreshW, []) := ⟨rfl, rfl⟩

/-! ## C10: the trade log and the daily aggregate -/

theorem check_buy_fst (cfg : RiskConfig) (d : DailyPnL) (today : ℕ)
    (sig : Signal) (pf : Portfolio) (amt : ℚ) :
    (check_buy cfg d today sig pf amt).1 = resetDailyIfNeeded d today := by
  unfold check_buy
  dsimp only
  split_ifs <;> rfl

theorem execute_buy_shape (pm : PortfolioManager) (sn tk reason : String)
    (price amt : ℚ) (r : PortfolioManager × Trade)
    (hr : execute_buy pm sn tk price amt reason = some r) :
    r.2.side = Side.buy ∧ r.2.profit = none := by
  unfold execute_buy at hr
  by_cases hb : pm.portfolio.krw_balance < amt
  · rw [if_pos hb] at hr
    exact absurd hr (by simp)
  · rw [if_neg hb] at hr
    simp only [Option.some.injEq] at hr
    subst hr
    exact ⟨rfl, rfl⟩

theorem execute_signal_log (cfg : EngineConfig) (s : EngineState)
    (today now : ℕ) (sig : Signal) (price : ℚ)
    (hd : s.daily.date = today) :
    (execute_signal cfg s today now sig price).1.daily.date = today ∧
    ((execute_signal cfg s today now sig price).2 = none →
      (execute_signal cfg s today now sig price).1.trade_log = s.trade_log ∧
      (execute_signal cfg s today now sig price).1.daily = s.daily) ∧
    (∀ tr, (execute_signal cfg s today now sig price).2 = some tr →
      isLogged tr = true →
      (execute_signal cfg s today now sig price).1.trade_log
        = s.trade_log ++ [tr] ∧
      (execute_signal cfg s today now sig price).1.daily.realized_pnl
        = s.daily.realized_pnl + pnlOf tr ∧
      (execute_signal cfg s today now sig price).1.daily.trades_today
        = s.daily.trades_today + 1) ∧
    (∀ tr, (execute_signal cfg s today now sig price).2 = some tr →
      isLogged tr = false →
      (execute_signal cfg s today now sig price).1.trade_log = s.trade_log ∧
      (execute_signal cfg s today now sig price).1.daily = s.daily) := by
  have hreset : resetDailyIfNeeded s.daily today = s.daily := by
    simp [resetDailyIfNeeded, hd]
  cases hst : sig.signal_type with
  | buy =>
    have hdc : (check_buy cfg.risk s.daily today sig s.portfolio
        cfg.trading.buy_amount).1 = s.daily :=
      (check_buy_fst cfg.risk s.daily today sig s.portfolio
        cfg.trading.buy_amount).trans hreset
    by_cases hal : (check_buy cfg.risk s.daily today sig s.portfolio
        cfg.trading.buy_amount).2.allowed = true
    · cases hex : execute_buy
          ⟨s.portfolio, cfg.fee_rate⟩ sig.strategy_name sig.ticker price
          cfg.trading.buy_amount sig.reason with
      | none =>
        have hE : execute_signal cfg s today now sig price
            = ({ s with daily := (check_buy cfg.risk s.daily today sig
                  s.portfolio cfg.trading.buy_amount).1 }, none) := by
          unfold execute_signal
          rw [hst]
          dsimp only
          rw [if_neg (not_not_intro hal)]
          simp only [hex]
        rw [hE]
        refine ⟨by dsimp only; rw [hdc, hd], fun _ => ⟨rfl, hdc⟩, ?_, ?_⟩
        · intro tr htr
          exact absurd htr (by simp)
        · intro tr htr
          exact absurd htr (by simp)
      | some r =>
        obtain ⟨pm, trade⟩ := r
        obtain ⟨hside, hprofit⟩ := execute_buy_shape _ _ _ _ _ _ _ hex
        have hrec : record_trade_pnl (check_buy cfg.risk s.daily today sig
            s.portfolio cfg.trading.buy_amount).1 today 0
            = { date := today,
                realized_pnl := s.daily.realized_pnl + 0,
                trades_today := s.daily.trades_today + 1 } := by
          rw [hdc]
          unfold record_trade_pnl
          rw [hreset]
          dsimp only
          rw [hd]
        have hE : execute_signal cfg s today now sig price
            = ({ portfolio := pm.portfolio,
                 daily := record_trade_pnl (check_buy cfg.risk s.daily today
                   sig s.portfolio cfg.trading.buy_amount).1 today 0,
                 trade_log := s.trade_log ++ [trade] }, some trade) := by
          unfold execute_signal
          rw [hst]
          dsimp only
          rw [if_neg (not_not_intro hal)]
          simp only [hex]
        rw [hE]
        refine ⟨by dsimp only; rw [hrec], ?_, ?_, ?_⟩
        · intro hnone
          exact absurd hnone (by simp)
        · intro tr htr _
          have htr2 : trade = tr := by simpa using htr
          subst htr2
          refine ⟨rfl, ?_, by dsimp only; rw [hrec]⟩
          dsimp only
          rw [hrec]
          show s.daily.realized_pnl + 0 = s.daily.realized_pnl + pnlOf trade
          rw [pnlOf, hprofit]
          rfl
        · intro tr htr hlog
          have htr2 : trade = tr := by simpa using htr
          subst htr2
          rw [isLogged, hside] at hlog
          simp at hlog
    · have hE : execute_signal cfg s today now sig price
          = ({ s with daily := (check_buy cfg.risk s.daily today sig
                s.portfolio cfg.trading.buy_amount).1 }, none) := by
        unfold execute_signal
        rw [hst]
        dsimp only
        rw [if_pos hal]
      rw [hE]
      refine ⟨by dsimp only; rw [hdc, hd], fun _ => ⟨rfl, hdc⟩, ?_, ?_⟩
      · intro tr htr
        exact absurd htr (by simp)
      · intro tr htr
        exact absurd htr (by simp)
  | sell =>
    by_cases hal : (check_sell sig s.portfolio).allowed = true
    · cases hex : execute_sell
          ⟨s.portfolio, cfg.fee_rate⟩ sig.strategy_name sig.ticker price
          sig.reason now with
      | none =>
        have hE : execute_signal cfg s today now sig price = (s, none) := by
          unfold execute_signal
          rw [hst]
          dsimp only
          rw [if_neg (not_not_intro hal)]
          simp only [hex]
        rw [hE]
        refine ⟨hd, fun _ => ⟨rfl, rfl⟩, ?_, ?_⟩
        · intro tr htr
          exact absurd htr (by simp)
        · intro tr htr
          exact absurd htr (by simp)
      | some r =>
        obtain ⟨pm, trade⟩ := r
        obtain ⟨hside, -⟩ := execute_sell_shape _ _ _ _ _ _ _ hex
        by_cases hpt : profitTruthy trade = true
        · have hrec : record_trade_pnl s.daily today (trade.profit.getD 0)
              = { date := today,
                  realized_pnl := s.daily.realized_pnl + trade.profit.getD 0,
                  trades_today := s.daily.trades_today + 1 } := by
            unfold record_trade_pnl
            rw [hreset]
            dsimp only
            rw [hd]
          have hE : execute_signal cfg s today now sig price
              = ({ portfolio := pm.portfolio,
                   daily := record_trade_pnl s.daily today (trade.profit.getD 0),
                   trade_log := s.trade_log ++ [trade] }, some trade) := by
            unfold execute_signal
            rw [hst]
            dsimp only
            rw [if_neg (not_not_intro hal)]
            simp only [hex]
            rw [if_pos hpt]
          rw [hE]
          refine ⟨by dsimp only; rw [hrec], ?_, ?_, ?_⟩
          · intro hnone
            exact absurd hnone (by simp)
          · intro tr htr _
            have htr2 : trade = tr := by simpa using htr
            subst htr2
            exact ⟨rfl, by dsimp only; rw [hrec]; rfl, by dsimp only; rw [hrec]⟩
          · intro tr htr hlog
            have htr2 : trade = tr := by simpa using htr
            subst htr2
            rw [isLogged, hpt, Bool.or_true] at hlog
            cases hlog
        · have hE : execute_signal cfg s today now sig price
              = ({ s with portfolio := pm.portfolio }, some trade) := by
            unfold execute_signal
            rw [hst]
            dsimp only
            rw [if_neg (not_not_intro hal)]
            simp only [hex]
            rw [if_neg hpt]
          rw [hE]
          refine ⟨hd, ?_, ?_, ?_⟩
          · intro hnone
            exact absurd hnone (by simp)
          · intro tr htr hlog
            have htr2 : trade = tr := by simpa using htr
            subst htr2
            rw [isLogged, hside] at hlog
            simp only [Bool.not_eq_true] at hpt
            rw [hpt] at hlog
            simp at hlog
          · intro tr htr _
            have htr2 : trade = tr := by simpa using htr
            subst htr2
            exact ⟨rfl, rfl⟩
    · have hE : execute_signal cfg s today now sig price = (s, none) := by
        unfold execute_signal
        rw [hst]
        dsimp only
        rw [if_pos hal]
      rw [hE]
      refine ⟨hd, fun _ => ⟨rfl, rfl⟩, ?_, ?_⟩
      · intro tr htr
        exact absurd htr (by simp)
      · intro tr htr
        exact absurd htr (by simp)

theorem strat_fold_log (cfg : EngineConfig) (today now : ℕ) (tick : Tick)
    (L : List Strat) :
    ∀ (st : EngineState) (ts : List Trade),
    st.daily.date = today →
    ∃ new : List Trade,
      (L.foldl (strat_step cfg today now tick) (st, ts)).2 = ts ++ new ∧
      (L.foldl (strat_step cfg today now tick) (st, ts)).1.trade_log
        = st.trade_log ++ new.filter isLogged ∧
      (L.foldl (strat_step cfg today now tick) (st, ts)).1.daily.date = today ∧
      (L.foldl (strat_step cfg today now tick) (st, ts)).1.daily.realized_pnl
        = st.daily.realized_pnl + ((new.filter isLogged).map pnlOf).sum ∧
      (L.foldl (strat_step cfg today now tick) (st, ts)).1.daily.trades_today
        = st.daily.trades_today + (new.filter isLogged).length := by
  induction L with
  | nil =>
    intro st ts hd
    exact ⟨[], by simp, by simp, hd, by simp, by simp⟩
  | cons strat L ih =>
    intro st ts hd
    rw [List.foldl_cons]
    cases hsg : strat tick.ticker (build_market_data st.portfolio tick.ticker tick) with
    | none =>
      have hstep : strat_step cfg today now tick (st, ts) strat = (st, ts) := by
        unfold strat_step
        rw [hsg]
      rw [hstep]
      exact ih st ts hd
    | some sig =>
      have hes := execute_signal_log cfg st today now sig tick.price hd
      cases htr : (execute_signal cfg st today now sig tick.price).2 with
      | none =>
        have hstep : strat_step cfg today now tick (st, ts) strat
            = ((execute_signal cfg st today now sig tick.price).1, ts) := by
          unfold strat_step
          rw [hsg]
          dsimp only
          rw [htr]
        rw [hstep]
        obtain ⟨hlog, hdaily⟩ := hes.2.1 htr
        obtain ⟨new, h1, h2, h3, h4, h5⟩ := ih _ ts hes.1
        exact ⟨new, h1, by rw [h2, hlog], h3, by rw [h4, hdaily],
          by rw [h5, hdaily]⟩
      | some tr =>
        have hstep : strat_step cfg today now tick (st, ts) strat
            = ((execute_signal cfg st today now sig tick.price).1, ts ++ [tr]) := by
          unfold strat_step
          rw [hsg]
          dsimp only
          rw [htr]
        rw [hstep]
        obtain ⟨new, h1, h2, h3, h4, h5⟩ := ih _ (ts ++ [tr]) hes.1
        by_cases hl : isLogged tr = true
        · obtain ⟨hlog, hpnl, htt⟩ := hes.2.2.1 tr htr hl
          refine ⟨tr :: new, ?_, ?_, h3, ?_, ?_⟩
          · rw [h1, List.append_assoc]
            rfl
          · rw [h2, hlog, List.filter_cons_of_pos hl, List.append_assoc]
            rfl
          · rw [h4, hpnl, List.filter_cons_of_pos hl, List.map_cons,
              List.sum_cons, pnlOf]
            ring
          · rw [h5, htt, List.filter_cons_of_pos hl, List.length_cons]
            omega
        · have hl' : isLogged tr = false := by rwa [Bool.not_eq_true] at hl
          obtain ⟨hlog, hdaily⟩ := hes.2.2.2 tr htr hl'
          refine ⟨tr :: new, ?_, ?_, h3, ?_, ?_⟩
          · rw [h1, List.append_assoc]
            rfl
          · rw [h2, hlog, List.filter_cons_of_neg (by simp [hl'])]
          · rw [h4, hdaily, List.filter_cons_of_neg (by simp [hl'])]
          · rw [h5, hdaily, List.filter_cons_of_neg (by simp [hl'])]

/-- C10: over a `process_tick` step from any engine state (hence along any
sequence of ticks), the trade log receives exactly the signal-driven
trades that are BUYs or SELLs with truthy (non-null, nonzero) profit, and
the daily aggregate receives exactly their PnL contributions; a risk-exit
trade is returned in the result list but the trade log and the daily
aggregate are untouched, as is a signal SELL with zero profit. -/
theorem trade_log_exact (cfg : EngineConfig) (strategies : List Strat)
    (s : EngineState) (today now : ℕ) (tick : Tick)
    (hd : s.daily.date = today)
    (hwf : ∀ e ∈ s.portfolio.positions,
      (e.2).status = PositionStatus.opened → 0 < (e.2).entry_price)
    (hfee : cfg.fee_rate ≠ 1) :
    (∀ (pm' : PortfolioManager) (tr : Trade),
      ¬(tick.ticker = "" ∨ tick.price = 0) →
      check_risk_exits cfg
          ⟨(update_highest_price ⟨s.portfolio, cfg.fee_rate⟩ tick.ticker
              tick.price).portfolio, cfg.fee_rate⟩ tick.ticker tick.price now
        = some (pm', tr) →
      (process_tick cfg strategies s today now tick).1.trade_log = s.trade_log ∧
      (process_tick cfg strategies s today now tick).1.daily = s.daily ∧
      (process_tick cfg strategies s today now tick).2 = [tr]) ∧
    (((tick.ticker = "" ∨ tick.price = 0) ∨
      check_risk_exits cfg
          ⟨(update_highest_price ⟨s.portfolio, cfg.fee_rate⟩ tick.ticker
              tick.price).portfolio, cfg.fee_rate⟩ tick.ticker tick.price now
        = none) →
      (process_tick cfg strategies s today now tick).1.trade_log
        = s.trade_log ++
          ((process_tick cfg strategies s today now tick).2.filter isLogged) ∧
      (process_tick cfg strategies s today now tick).1.daily.realized_pnl
        = s.daily.realized_pnl +
          (((process_tick cfg strategies s today now tick).2.filter
            isLogged).map pnlOf).sum ∧
      (process_tick cfg strategies s today now tick).1.daily.trades_today
        = s.daily.trades_today +
          ((process_tick cfg strategies s today now tick).2.filter
            isLogged).length) := by
  constructor
  · intro pm' tr hg hx
    rw [process_tick_exit_eq cfg strategies s today now tick pm' tr hg hx]
    exact ⟨rfl, rfl, rfl⟩
  · intro hcase
    by_cases hg : tick.ticker = "" ∨ tick.price = 0
    · have hpt : process_tick cfg strategies s today now tick = (s, []) := by
        unfold process_tick
        rw [if_pos hg]
      rw [hpt]
      exact ⟨by simp, by simp, by simp⟩
    · have hnone : check_risk_exits cfg
          ⟨(update_highest_price ⟨s.portfolio, cfg.fee_rate⟩ tick.ticker
              tick.price).portfolio, cfg.fee_rate⟩ tick.ticker tick.price now
          = none := by
        rcases hcase with h | h
        · exact absurd h hg
        · exact h
      have hpt : process_tick cfg strategies s today now tick
          = strategies.foldl (strat_step cfg today now tick)
              ({ s with portfolio :=
                (update_highest_price ⟨s.portfolio, cfg.fee_rate⟩ tick.ticker
                  tick.price).portfolio }, []) := by
        unfold process_tick
        rw [if_neg hg]
        dsimp only
        rw [hnone]
      rw [hpt]
      obtain ⟨new, h1, h2, h3, h4, h5⟩ := strat_fold_log cfg today now tick
        strategies
        { s with portfolio :=
          (update_highest_price ⟨s.portfolio, cfg.fee_rate⟩ tick.ticker
            tick.price).portfolio } [] hd
      rw [h1]
      refine ⟨?_, ?_, ?_⟩
      · rw [h2, List.nil_append]
      · rw [h4, List.nil_append]
      · rw [h5, List.nil_append]

/-- Witness for C10: at a concrete tick with no strategies and no open
position the trade-log and daily-PnL equations hold (both sides empty). -/
theorem trade_log_exact_witness :
    (process_tick {} [] sFreshW 0 0 tickBuyW).1.trade_log
        = sFreshW.trade_log ++
          ((process_tick {} [] sFreshW 0 0 tickBuyW).2.filter isLogged) ∧
    (process_tick {} [] sFreshW 0 0 tickBuyW).1.daily.realized_pnl
        = sFreshW.daily.realized_pnl +
          (((process_tick {} [] sFreshW 0 0 tickBuyW).2.filter
            isLogged).map pnlOf).sum := by
  have hnone : check_risk_exits {}
      ⟨(update_highest_price ⟨sFreshW.portfolio, ({} : EngineConfig).fee_rate⟩
          tickBuyW.ticker tickBuyW.price).portfolio,
       ({} : EngineConfig).fee_rate⟩ tickBuyW.ticker tickBuyW.price 0
      = none := by
    simp [check_risk_exits, update_highest_price, Portfolio.getPos,
      sFreshW, pfRichW]
  have H := trade_log_exact {} [] sFreshW 0 0 tickBuyW rfl
    (by simp [sFreshW, pfRichW]) (by norm_num [mkFeeRate])
  obtain ⟨ha, hb, -⟩ := H.2 (Or.inr hnone)
  exact ⟨ha, hb⟩

end CoinTrader
